import Mathlib

/-!
Shallow embedding of `src/main.py` (the async variant, which is the final
state of the file and the one the specification's line references point to).

HTML parsing (BeautifulSoup) cannot be embedded; instead a listing card is
modelled by the exact pieces of information the source queries from the
parsed markup (`Card` below), and the network fetch is modelled by a pure
function `String → Option String` from page URL to body, mirroring
`fetch_page`, which returns the body on HTTP 200 and `None` on any non-200
status or transport error.

Python regular-expression matching with `re.I` is modelled by ASCII case
folding (`lcase`), which agrees with Python on every token the source's
patterns use (they are all ASCII letters, `²`, `€`, `$`).
-/

namespace Scraper

/-- ASCII lower-casing, written as an explicit table so that facts about it
are provable by finite case analysis.  Models Python `re.I` folding and
`str.lower` on the ASCII letters the source's patterns use. -/
def ucTable : List (Char × Char) :=
  [('A', 'a'), ('B', 'b'), ('C', 'c'), ('D', 'd'), ('E', 'e'), ('F', 'f'),
   ('G', 'g'), ('H', 'h'), ('I', 'i'), ('J', 'j'), ('K', 'k'), ('L', 'l'),
   ('M', 'm'), ('N', 'n'), ('O', 'o'), ('P', 'p'), ('Q', 'q'), ('R', 'r'),
   ('S', 's'), ('T', 't'), ('U', 'u'), ('V', 'v'), ('W', 'w'), ('X', 'x'),
   ('Y', 'y'), ('Z', 'z')]

def lcase (c : Char) : Char :=
  (((ucTable.find? (fun p => p.1 = c)).map (fun p => p.2)).getD c)

/-- ASCII upper-casing; models Python `str.upper()` on the slices the source
upper-cases (currency tokens, all ASCII). -/
def ucase (c : Char) : Char :=
  (((ucTable.find? (fun p => p.2 = c)).map (fun p => p.1)).getD c)

/-- Python `\s` (the whitespace characters that can occur in the inputs
considered here; Python's class is Unicode-wide, this covers the common
ones including the narrow no-break space the source strips). -/
def isWS (c : Char) : Bool :=
  c = ' ' || c = '\t' || c = '\n' || c = '\r' || c = '\x0b' || c = '\x0c' ||
  c = '\u00A0' || c = '\u202F'

/-- Character class `[\d\s.,]` used by the numeral groups of the price and
area patterns. -/
def inNumClass (c : Char) : Bool :=
  c.isDigit || isWS c || c = '.' || c = ','

/-- Case-insensitive literal match at the head of the input: `pat` is the
pattern already lower-cased; returns the matched original slice and the
rest of the input. -/
def litCI : List Char → List Char → Option (List Char × List Char)
  | [], l => some ([], l)
  | _ :: _, [] => none
  | p :: ps, c :: cs =>
      if lcase c = p then
        match litCI ps cs with
        | some (m, rest) => some (c :: m, rest)
        | none => none
      else none

/-- Alternation over literal tokens, in the pattern's left-to-right order,
first match wins (as in a Python regex alternation). -/
def tokAlt : List (List Char) → List Char → Option (List Char × List Char)
  | [], _ => none
  | t :: ts, l =>
      match litCI t l with
      | some r => some r
      | none => tokAlt ts l

/-- Matches `\s*` followed by one of the tokens.  The tokens all start with
a non-whitespace character, so the greedy `\s*` never needs to backtrack:
it must consume the whole whitespace run. -/
def wsThenTok (toks : List (List Char)) (l : List Char) :
    Option (List Char × List Char) :=
  tokAlt toks (l.dropWhile isWS)

/-- Backtracking matcher for `[\d\s.,]*\s*(tok₁|tok₂|…)` after the leading
digit has been consumed into `acc` (reversed): the numeral run is greedy,
giving back characters from the right until the trailing-token part
matches, exactly as the Python regex engine does.  Returns the numeral
group and the matched token slice. -/
def numScan (toks : List (List Char)) :
    List Char → List Char → Option (List Char × List Char)
  | acc, [] =>
      match wsThenTok toks [] with
      | some (m, _) => some (acc.reverse, m)
      | none => none
  | acc, c :: cs =>
      match (if inNumClass c then numScan toks (c :: acc) cs else none) with
      | some r => some r
      | none =>
          match wsThenTok toks (c :: cs) with
          | some (m, _) => some (acc.reverse, m)
          | none => none

/-- `re.search` for `\d[\d\s.,]*\s*(tok…)` (and for the area pattern
`\d+[\d\s.,]*\s*(unit…)`, whose numeral group matches the same spans):
tries each start position left to right, the position must start with a
digit.  Returns (numeral group, matched token slice). -/
def searchNumTok (toks : List (List Char)) :
    List Char → Option (List Char × List Char)
  | [] => none
  | c :: cs =>
      if c.isDigit then
        match numScan toks [c] cs with
        | some r => some r
        | none => searchNumTok toks cs
      else searchNumTok toks cs

/-- One attempt of `(tok…)\s*(\d[\d\s.,]*)` at a fixed start position: the
alternation backtracks through the tokens until the rest of the pattern
matches.  Returns (matched token slice, numeral group). -/
def tokThenNum : List (List Char) → List Char → Option (List Char × List Char)
  | [], _ => none
  | t :: ts, l =>
      match litCI t l with
      | some (cur, rest) =>
          match rest.dropWhile isWS with
          | d :: ds =>
              if d.isDigit then some (cur, d :: ds.takeWhile inNumClass)
              else tokThenNum ts l
          | [] => tokThenNum ts l
      | none => tokThenNum ts l

/-- `re.search` for the currency-first pattern, left to right. -/
def searchTokNum (toks : List (List Char)) :
    List Char → Option (List Char × List Char)
  | [] => none
  | c :: cs =>
      match tokThenNum toks (c :: cs) with
      | some r => some r
      | none => searchTokNum toks cs

/-- Match of `price\s*on\s*request` at the head of the input (`re.I`).
`\s*` needs no backtracking since `o` and `r` are not whitespace. -/
def matchPOR (l : List Char) : Bool :=
  match litCI ['p', 'r', 'i', 'c', 'e'] l with
  | some (_, r1) =>
      match litCI ['o', 'n'] (r1.dropWhile isWS) with
      | some (_, r2) => (litCI ['r', 'e', 'q', 'u', 'e', 's', 't'] (r2.dropWhile isWS)).isSome
      | none => false
  | none => false

/-- `re.search(r"price\s*on\s*request", text, re.I)` is truthy. -/
def searchPOR : List Char → Bool
  | [] => false
  | c :: cs => matchPOR (c :: cs) || searchPOR cs

def digitsToNat (l : List Char) : Nat :=
  l.foldl (fun a c => a * 10 + (c.toNat - 48)) 0

/-- Python `float()` restricted to the strings this pipeline can produce
(digits, dots and whitespace): optional surrounding whitespace, then digits
with at most one dot and at least one digit; `"1."` and `".5"` parse, `"."`
and `"1.2.3"` raise `ValueError` (here: `none`).  The value is exact (ℚ),
modelling the real number the text denotes. -/
def pyFloat (s : List Char) : Option ℚ :=
  let t := ((s.dropWhile isWS).reverse.dropWhile isWS).reverse
  if t.isEmpty then none
  else if t.all (fun c => c.isDigit || c = '.') &&
          (t.count '.') ≤ 1 && t.any (fun c => c.isDigit) then
    let ip := t.takeWhile (fun c => c ≠ '.')
    let fp := (t.dropWhile (fun c => c ≠ '.')).drop 1
    some (mkRat (digitsToNat ip * 10 ^ fp.length + digitsToNat fp) (10 ^ fp.length))
  else none

/-- `num.replace(" ", "").replace(",", "").replace("\u202f", "")`. -/
def numNormalize (num : List Char) : List Char :=
  num.filter (fun c => !(c = ' ' || c = ',' || c = '\u202F'))

/-- Modelled from the spec: the middle of `parse_price`'s try/except is cut
from the source by the diff corruption; per the spec it coerces to a float,
"falling back to stripping all non-digit/non-dot characters if the first
coercion fails" (the fallback's `value = float(digits)` and both `return`
lines are visible in the source). -/
def coerceFloat (num : List Char) : Option ℚ :=
  match pyFloat num with
  | some v => some v
  | none => pyFloat (num.filter (fun c => c.isDigit || c = '.'))

def curToks : List (List Char) :=
  [['d', 'h'], ['m', 'a', 'd'], ['d', 'h', 's'], ['€'], ['$']]

def strOf (l : List Char) : String := String.mk l

/-- Shared tail of `parse_price`: normalize the numeral, coerce, and return
the currency slice upper-cased (`cur.upper()`); a failed coercion still
returns the currency (`return None, cur.upper()` is visible in the
source). -/
def finishPrice (num cur : List Char) : Option ℚ × Option String :=
  let n := numNormalize num
  (coerceFloat n, some (strOf (cur.map ucase)))

/-- `parse_price` from src/main.py: empty text and "price on request" give
(None, None); otherwise search `(?P<num>\d[\d\s.,]*)\s*(?P<cur>DH|MAD|DHS|€|\$)`
then `(DH|MAD|DHS|€|\$)\s*(\d[\d\s.,]*)`, both `re.I`. -/
def parse_price (text : String) : Option ℚ × Option String :=
  if text = "" then (none, none)
  else if searchPOR text.toList then (none, none)
  else
    match searchNumTok curToks text.toList with
    | some (num, cur) => finishPrice num cur
    | none =>
        match searchTokNum curToks text.toList with
        | some (cur, num) => finishPrice num cur
        | none => (none, none)

def unitToks : List (List Char) :=
  [['m', '²'], ['m', '2'], ['s', 'q', 'm']]

/-- `parse_area` from src/main.py: searches
`(?P<num>\d+[\d\s.,]*)\s*(?P<unit>m²|m2|sqm)` (`re.I`), strips spaces,
narrow no-break spaces and commas from the numeral and coerces it.  The
two lines after `val = float(raw)` are cut from the source by the diff
corruption; the success return `(val, unit)` follows from the function's
signature, its docstring and its caller, and the failure branch is
modelled from the spec: "`parse_area(text) -> (value, unit) | absent`". -/
def parse_area (text : String) : Option ℚ × Option String :=
  if text = "" then (none, none)
  else
    match searchNumTok unitToks text.toList with
    | some (num, unit) =>
        let raw := numNormalize num
        match pyFloat raw with
        | some v => (some v, some (strOf unit))
        | none => (none, none)
    | none => (none, none)

/-- Exact (case-sensitive) substring containment, Python's `in` on
strings, used for `"http" in image`, `" " in image` and
`"mubawab.ma" in input.url`. -/
def isPrefixOfL : List Char → List Char → Bool
  | [], _ => true
  | _ :: _, [] => false
  | a :: as, b :: bs => a = b && isPrefixOfL as bs

def containsSub : List Char → List Char → Bool
  | [], needle => needle.isEmpty
  | h :: t, needle => isPrefixOfL needle (h :: t) || containsSub t needle

def containsSubstr (hay needle : String) : Bool :=
  containsSub hay.toList needle.toList

/-- Python `s.startswith(p)`. -/
def strStartsWith (s p : String) : Bool :=
  isPrefixOfL p.toList s.toList

/-- Python `round(x, 2)` on the exact value: round half to even at two
decimals, implemented with integer arithmetic on the reduced fraction. -/
def round2 (q : ℚ) : ℚ :=
  let n : ℤ := q.num * 100
  let d : ℤ := (q.den : ℤ)
  let f : ℤ := n.fdiv d
  let r : ℤ := n - f * d
  let i : ℤ :=
    if 2 * r < d then f
    else if d < 2 * r then f + 1
    else if f % 2 = 0 then f else f + 1
  mkRat i 100

/-- Modelled from the spec: the body of `clean_spaces` is cut from the
source by the diff corruption (only its signature survives); per its name
and the spec's normalization language it collapses whitespace runs to a
single space and trims the ends. -/
def trimWSList (l : List Char) : List Char :=
  ((l.dropWhile isWS).reverse.dropWhile isWS).reverse

def collapseWS : List Char → Bool → List Char
  | [], _ => []
  | c :: cs, prevWS =>
      if isWS c then
        (if prevWS then collapseWS cs true else ' ' :: collapseWS cs true)
      else c :: collapseWS cs false

def clean_spaces (t : String) : String :=
  strOf (collapseWS (trimWSList t.toList) false)

/-- Word character for the `\b` boundary in `extract_location_from_title`
(Python `\w`, here its ASCII part, which covers the titles considered). -/
def isWordChar (c : Char) : Bool := c.isAlphanum || c = '_'

/-- One attempt of `\s+([^.\-]+)` right after a matched "in": the greedy
`\s+` must leave at least one capturable character, giving back one
whitespace character when the run is followed directly by `.` or `-`
(regex backtracking), and failing when it cannot. -/
def locCapture (rest : List Char) : Option (List Char) :=
  let ws := rest.takeWhile isWS
  if ws.isEmpty then none
  else
    let after := rest.drop ws.length
    let cap := after.takeWhile (fun c => !(c = '.' || c = '-'))
    if !cap.isEmpty then some cap
    else if 2 ≤ ws.length then some [ws.getLastD ' ']
    else none

/-- `re.search(r"\bin\s+([^.\-]+)", title, re.I)`: scan left to right; the
boundary holds at the start or after a non-word character. -/
def locSearch : List Char → Bool → Option (List Char)
  | [], _ => none
  | c :: cs, bnd =>
      match
        (if bnd then
          match litCI ['i', 'n'] (c :: cs) with
          | some (_, rest) => locCapture rest
          | none => none
        else none) with
      | some g => some g
      | none => locSearch cs (!isWordChar c)

/-- `extract_location_from_title` from src/main.py.  The lines after the
`re.search` are cut from the source by the diff corruption; the tail is
modelled from the spec: "return the trimmed phrase" on a match, absent
otherwise. -/
def extract_location_from_title (title : String) : Option String :=
  if title = "" then none
  else
    match locSearch title.toList true with
    | some g => some (strOf (trimWSList g))
    | none => none

/-- Attribute map of a tag, as BeautifulSoup's `tag.get`. -/
def tagGet (attrs : List (String × String)) (name : String) : Option String :=
  (attrs.find? (fun p => p.1 = name)).map (fun p => p.2)

/-- Modelled from the spec: the body of `first_attr(tag, *attrs)` is cut
from the source by the diff corruption (only its final `return None`
survives); per the spec's cascade contract ("first non-empty wins",
"absence of a preferred attribute never raises an error, it advances to
the next cascade step") it returns the first attribute in the given order
whose value is present and non-empty. -/
def first_attr (attrs : List (String × String)) : List String → Option String
  | [] => none
  | a :: rest =>
      match tagGet attrs a with
      | some v => if v = "" then first_attr attrs rest else some v
      | none => first_attr attrs rest

/-- The first anchor with an `href` inside a card (`box.find("a",
href=True)`): its `href` value, its text via `get_text(strip=True)` (used
for the length test) and via `get_text(" ", strip=True)` (used as the
title value). -/
structure Anchor where
  href : String
  textStrip : String
  textSpaced : String
deriving DecidableEq, Repr

/-- One listing card, modelled by exactly the pieces of the parsed markup
that `parse_listings` queries from a card `box`: its full visible text,
the text of the first title-selector hit (`.listTitle, .titleRow,
p.listingP, .disFlex.titleRow`), the first `a[href]`, the first text node
matching the area pattern, and the attribute map of the first `img` tag. -/
structure Card where
  textAll : String
  titleTagText : Option String
  anchor : Option Anchor
  areaString : Option String
  imgAttrs : Option (List (String × String))
deriving DecidableEq, Repr

/-- The record emitted per card (the dict literal of `parse_listings`).
Fields that the source fills with `x or ""` are strings; `price`, `area`
and `price_per_sqm` alone may be absent. -/
structure ListingRecord where
  title : String
  price : Option ℚ
  currency : String
  area : Option ℚ
  unit : String
  location : String
  image : String
  link : String
  retrieved_at : String
  price_per_sqm : Option ℚ
deriving DecidableEq, Repr

/-- Python truthiness of an optional string (`if not title`). -/
def strTruthy : Option String → Bool
  | none => false
  | some s => s ≠ ""

/-- Title cascade of `parse_listings`: title selector text, else text of
the first anchor whose stripped text exceeds 5 characters, else the first
140 characters of the card text, each passed through `clean_spaces`. -/
def titleOf (box : Card) : String :=
  let t1 : Option String := box.titleTagText.map clean_spaces
  let t2 : Option String :=
    if strTruthy t1 then t1
    else
      match box.anchor with
      | some a => if 5 < a.textStrip.length then some (clean_spaces a.textSpaced) else t1
      | none => t1
  if strTruthy t2 then t2.getD "" else clean_spaces (strOf (box.textAll.toList.take 140))

/-- Link extraction of `parse_listings`: the first anchor's `href`; if it
is truthy and starts with "/" it is prefixed with the site origin,
otherwise it is kept unchanged. -/
def linkOf (box : Card) : Option String :=
  match box.anchor with
  | some a =>
      if a.href ≠ "" && strStartsWith a.href "/" then
        some ("https://www.mubawab.ma" ++ a.href)
      else some a.href
  | none => none

/-- Area extraction of `parse_listings`: `parse_area` applied to the first
text node matching the area pattern, if any. -/
def areaOf (box : Card) : Option ℚ × Option String :=
  match box.areaString with
  | some s => parse_area s
  | none => (none, none)

/-- Image cascade of `parse_listings`: `first_attr(img, "data-src",
"src", "data-lazy", "data-original", "srcset")`; if the chosen value
contains a space and "http", take the first comma candidate's first
space-delimited token (`image.split(",")[0].strip().split(" ")[0]`,
written here on character lists: before the first comma, trimmed, up to
the first space). -/
def imageOf (box : Card) : Option String :=
  match box.imgAttrs with
  | none => none
  | some attrs =>
      match first_attr attrs ["data-src", "src", "data-lazy", "data-original", "srcset"] with
      | none => none
      | some v =>
          if v ≠ "" && containsSubstr v " " && containsSubstr v "http" then
            some (strOf ((trimWSList (v.toList.takeWhile (fun c => c ≠ ','))).takeWhile
              (fun c => c ≠ ' ')))
          else some v

/-- Price-per-square-meter computation of `parse_listings`:
`if price and area_val and area_val > 0: ppsqm = round(price / area_val, 2)`;
Python truthiness makes a price of 0 (and an area of 0) fail the test. -/
def ppsqmOf (price area : Option ℚ) : Option ℚ :=
  match price, area with
  | some p, some a => if p ≠ 0 ∧ a ≠ 0 ∧ 0 < a then some (round2 (p / a)) else none
  | _, _ => none

/-- The record built for one card by the loop body of `parse_listings`;
`today` is `str(date.today())`. -/
def buildRecord (today : String) (box : Card) : ListingRecord :=
  { title := titleOf box
    price := (parse_price box.textAll).1
    currency := ((parse_price box.textAll).2).getD ""
    area := (areaOf box).1
    unit := ((areaOf box).2).getD ""
    location := (extract_location_from_title (titleOf box)).getD ""
    image := (imageOf box).getD ""
    link := (linkOf box).getD ""
    retrieved_at := today
    price_per_sqm := ppsqmOf (parse_price box.textAll).1 (areaOf box).1 }

/-- `parse_listings` from src/main.py, over the card list the selectors
produced (`div.listingBox`, falling back to `div.adlist, div.contentBox,
div.box`; locating the cards inside the HTML is the part delegated to
BeautifulSoup and abstracted here): one record is appended per card. -/
def parse_listings (today : String) (cards : List Card) : List ListingRecord :=
  cards.map (buildRecord today)

def MAX_PAGES : Int := 200

def CONCURRENCY : Nat := 5

/-- `page_url = base_url if page == 1 else f"{base_url}:p:{page}"`. -/
def pageUrl (base : String) (page : Nat) : String :=
  if page = 1 then base else base ++ ":p:" ++ toString page

/-- The result-collection loop of `scrape_mubawab_list_page`, over the
gathered responses in page order: a failed fetch (`None`) or falsy (empty)
body is skipped with `continue`; a fetched page whose parse yields no
listings `break`s; otherwise the listings extend the result.  Generic in
the record type: the loop never inspects individual records. -/
def collectListings {R : Type} (parse : String → List R) :
    List (Option String) → List R
  | [] => []
  | none :: rest => collectListings parse rest
  | some body :: rest =>
      if body = "" then collectListings parse rest
      else
        let listings := parse body
        if listings.isEmpty then []
        else listings ++ collectListings parse rest

/-- `scrape_mubawab_list_page` from src/main.py: clamp the page count to
`[1, MAX_PAGES]`, fetch pages 1..pages concurrently (`asyncio.gather`
keeps the responses in page order, so the result is a pure function of
the per-URL fetch outcome; the concurrency limit does not affect it),
then run the collection loop.  `fetch` abstracts `fetch_page`: body on
HTTP 200, `None` on non-200 or transport error; `parse` abstracts
HTML-parsing a body into records. -/
def scrape_mubawab_list_page {R : Type} (fetch : String → Option String)
    (parse : String → List R) (base_url : String) (pages : Int) : List R :=
  let p : Nat := (max 1 (min pages MAX_PAGES)).toNat
  collectListings parse ((List.range p).map (fun k => fetch (pageUrl base_url (k + 1))))

/-- The request payload of the `/scrape` endpoint (`ScrapeInput`). -/
structure ScrapeInput where
  url : String
  city : String
  asset_type : String
  site_name : String
  listing_type : String
  document_name : Option String
  pages : Int
deriving DecidableEq, Repr

/-- One result record with the pass-through metadata the endpoint attaches
(`item["city"] = input.city` and so on). -/
structure OutputRecord where
  record : ListingRecord
  city : String
  asset_type : String
  site_name : String
  listing_type : String
  document_name : String
deriving DecidableEq, Repr

/-- Response of the `/scrape` endpoint: the record list, or the
`HTTPException(status_code=400, ...)` raised for a non-Mubawab URL. -/
inductive ScrapeResult where
  | ok (data : List OutputRecord)
  | httpError (status : Nat) (detail : String)
deriving DecidableEq, Repr

/-- The `/scrape` endpoint (`scrape` in src/main.py): if "mubawab.ma"
occurs in the URL, crawl and attach the metadata to every record (with
`document_name or ""`); otherwise raise HTTP 400. -/
def scrape (fetch : String → Option String) (parse : String → List ListingRecord)
    (input : ScrapeInput) : ScrapeResult :=
  if containsSubstr input.url "mubawab.ma" then
    .ok ((scrape_mubawab_list_page fetch parse input.url input.pages).map (fun r =>
      { record := r
        city := input.city
        asset_type := input.asset_type
        site_name := input.site_name
        listing_type := input.listing_type
        document_name := input.document_name.getD "" }))
  else .httpError 400 "Unsupported site. Currently only: Mubawab."

/-- The records one gathered response contributes to the final result:
none for a skipped (failed or empty-body) response, its parse otherwise. -/
def pageRecords {R : Type} (parse : String → List R) : Option String → List R
  | none => []
  | some b => if b = "" then [] else parse b

/-- Whether a gathered response triggers the `break` of the collection
loop: a non-empty body that parses to zero listings. -/
def stopPage {R : Type} (parse : String → List R) : Option String → Bool
  | none => false
  | some b => if b = "" then false else (parse b).isEmpty

/-- Spec-side notion (for claim C7 only, following the spec's words): a
link string is an absolute URL when it carries a scheme. -/
def specIsAbsoluteUrl (s : String) : Bool := containsSubstr s "://"

/-- A crawl job input used in concrete scenarios. -/
def exInput : ScrapeInput :=
  { url := "https://www.mubawab.ma/x", city := "Casablanca", asset_type := "Offices",
    site_name := "Mubawab", listing_type := "rent", document_name := none, pages := 3 }

/-- Simulated source where page 2's fetch fails (non-200 or transport
error: `fetch_page` returns `None`) while pages 1 and 3 succeed. -/
def exFetchGap (u : String) : Option String :=
  if u = "u" then some "A" else if u = "u:p:2" then none else some "C"

/-- Simulated source where page 2 fetches fine but parses to zero
listings, while pages 1 and 3 are non-empty. -/
def exFetchEmpty (u : String) : Option String :=
  if u = "u" then some "A" else if u = "u:p:2" then some "E" else some "C"

/-- Simulated page parser: body "E" has no cards, any other body has one
record carrying the body. -/
def exParse (s : String) : List String := if s = "E" then [] else [s]

/-- Card whose text prices at 0 DH with a positive area. -/
def zeroPriceCard : Card :=
  { textAll := "Shop offered at 0 DH promo", titleTagText := none, anchor := none,
    areaString := some "50 m2", imgAttrs := none }

/-- Card whose only anchor has a relative href without a leading slash. -/
def relLinkCard : Card :=
  { textAll := "Office", titleTagText := none,
    anchor := some { href := "details.html", textStrip := "", textSpaced := "" },
    areaString := none, imgAttrs := none }

/-- Card whose image tag carries both `src` and `data-lazy`. -/
def lazyImgCard : Card :=
  { textAll := "", titleTagText := none, anchor := none, areaString := none,
    imgAttrs := some [("src", "http://site/a.jpg"), ("data-lazy", "http://site/b.jpg")] }

/-- Card whose image value is a comma-separated source-set. -/
def srcsetCard : Card :=
  { textAll := "", titleTagText := none, anchor := none, areaString := none,
    imgAttrs := some [("data-src", "http://site/a.jpg 1x, http://site/b.jpg 2x")] }

/-- Card with every queried piece of markup absent. -/
def emptyCard : Card :=
  { textAll := "", titleTagText := none, anchor := none, areaString := none,
    imgAttrs := none }

/-- Card used to witness the corrected price-per-area rule. -/
def ppsqmCard : Card :=
  { textAll := "Office 100 DH monthly", titleTagText := none, anchor := none,
    areaString := some "50 m2", imgAttrs := none }

/-- C1, counterexample: with page 2's fetch failing and pages 1 and 3
succeeding with one record each, the crawl result is ["A", "C"]: the page
after the failed page IS included, not the ["A"] the claim's stop rule
demands. -/
theorem C1_counterexample :
    scrape_mubawab_list_page exFetchGap exParse "u" 3 = ["A", "C"] ∧
    (["A", "C"] : List String) ≠ ["A"] := by decide

/-- C2, counterexample: a card pricing at 0 DH with area 50 m² gets
`price_per_sqm = None`, although the claim demands presence with value
`round(0/50, 2) = 0` whenever price and area are present and area > 0. -/
theorem C2_counterexample :
    (buildRecord "2026-10-12" zeroPriceCard).price = some 0 ∧
    (buildRecord "2026-10-12" zeroPriceCard).area = some 50 ∧
    (0 : ℚ) < 50 ∧
    (buildRecord "2026-10-12" zeroPriceCard).price_per_sqm = none ∧
    (none : Option ℚ) ≠ some 0 := by decide

/-- C3, counterexample: `parse_price "26,000 DH"` returns the currency
"DH" unchanged (upper-cased), not the canonical code "MAD" the claim
demands. -/
theorem C3_counterexample :
    parse_price "26,000 DH" = (some 26000, some "DH") ∧
    (some "DH" : Option String) ≠ some "MAD" := by decide

/-- C3, amended: `parse_price` performs no canonical-code mapping: it
returns the matched currency token upper-cased, so "26,000 DH" gives
(26000.0, "DH") (and a lower-case "dh" likewise gives "DH"); "MAD" stays
"MAD"; in the number-first pattern a "DHS" suffix even matches as just
"DH" because of the alternation order, while the currency-first pattern
backtracks to "DHS". -/
theorem C3_amended_currency_is_uppercased_token :
    parse_price "26,000 DH" = (some 26000, some "DH") ∧
    parse_price "26000 dh" = (some 26000, some "DH") ∧
    parse_price "500 MAD" = (some 500, some "MAD") ∧
    parse_price "26,000 DHS" = (some 26000, some "DH") ∧
    parse_price "DHS 500" = (some 500, some "DHS") := by decide

/-- C4, counterexample: `parse_area "600 sqft"` returns absent — the
imperial marker is not recognized at all — although the claim demands
`(55.74, "m²")`; and the unit returned for "58 m2" is the matched marker
"m2", not the canonical "m²". -/
theorem C4_counterexample :
    parse_area "600 sqft" = (none, none) ∧
    ((none : Option ℚ), (none : Option String)) ≠ (some (mkRat 5574 100), some "m²") ∧
    parse_area "58 m2" = (some 58, some "m2") ∧
    (some "m2" : Option String) ≠ some "m²" := by decide

/-- C4, amended: `parse_area` recognizes only the metric markers m², m2
and sqm (case-insensitively); imperial inputs such as "600 sqft" or
"600 ft2" return absent and no conversion is performed; the metric value
is passed through unchanged and the returned unit is the matched marker
text itself, not a canonicalized "m²". -/
theorem C4_amended_metric_only :
    parse_area "58 m2" = (some 58, some "m2") ∧
    parse_area "58 M2" = (some 58, some "M2") ∧
    parse_area "120m²" = (some 120, some "m²") ∧
    parse_area "58 sqm" = (some 58, some "sqm") ∧
    parse_area "600 sqft" = (none, none) ∧
    parse_area "600 ft2" = (none, none) ∧
    parse_area "600 sq ft" = (none, none) := by decide

/-- C5, counterexample: "26,5 DH" normalizes to 265.0 — the comma is
dropped even without a period present — not to the 26.5 the claim's
decimal-separator rule demands. -/
theorem C5_counterexample :
    (parse_price "26,5 DH").1 = some 265 ∧
    (some (265 : ℚ) : Option ℚ) ≠ some (mkRat 265 10) := by decide

/-- C5, amended: commas are stripped from the numeral unconditionally
(always treated as thousands separators): with both comma and period
present "1,234.56" still parses as 1234.56, but a comma-only numeral
"26,5" parses as 265, not 26.5. -/
theorem C5_amended_comma_always_dropped :
    parse_price "1,234.56 DH" = (some (mkRat 123456 100), some "DH") ∧
    parse_price "26,5 DH" = (some 265, some "DH") := by decide

/-- C9, counterexample: a Mubawab job whose every fetch fails completes
with zero total records, and `scrape` returns it as the plain success
`ok []` — no distinct NoListingsError exists anywhere in the code. -/
theorem C9_counterexample :
    scrape (fun _ => none) (fun _ => ([] : List ListingRecord)) exInput =
      ScrapeResult.ok [] := by decide

/-- C9, amended: the endpoint returns either a record list or the typed
HTTP 400 error for unsupported sites; a job that completes with zero
total records is returned as the empty list, a normal success — it is not
surfaced as a distinct NoListingsError. -/
theorem C9_amended_empty_is_success :
    (∀ (fetch : String → Option String) (parse : String → List ListingRecord)
        (input : ScrapeInput),
      (∃ d, scrape fetch parse input = ScrapeResult.ok d) ∨
        scrape fetch parse input =
          ScrapeResult.httpError 400 "Unsupported site. Currently only: Mubawab.") ∧
    scrape (fun _ => some "nocards") (fun _ => ([] : List ListingRecord)) exInput =
      ScrapeResult.ok [] := by
  constructor
  · intro fetch parse input
    by_cases h : containsSubstr input.url "mubawab.ma"
    · exact Or.inl ⟨_, by rw [scrape, if_pos h]⟩
    · exact Or.inr (by rw [scrape, if_neg h])
  · decide

theorem isWS_lcase (c : Char) : isWS (lcase c) = isWS c := by
  unfold lcase
  cases h : ucTable.find? (fun p => p.1 = c) with
  | none => rfl
  | some p =>
      have hmem : p ∈ ucTable := List.mem_of_find?_eq_some h
      have hc : p.1 = c := by
        have h2 := List.find?_some h
        simpa using h2
      subst hc
      clear h
      simp only [Option.map_some', Option.getD_some]
      fin_cases hmem <;> rfl

theorem litCI_append :
    ∀ (pat l rest : List Char), l.map lcase = pat →
      litCI pat (l ++ rest) = some (l, rest) := by
  intro pat
  induction pat with
  | nil =>
      intro l rest h
      have hl : l = [] := List.map_eq_nil_iff.mp h
      subst hl
      rfl
  | cons p ps ih =>
      intro l rest h
      cases l with
      | nil => simp at h
      | cons c cs =>
          rw [List.map_cons] at h
          injection h with h1 h2
          rw [List.cons_append, litCI.eq_3, if_pos h1, ih cs rest h2]

theorem map_eq_append_ex {α β : Type} (f : α → β) :
    ∀ (A B : List β) (l : List α), l.map f = A ++ B →
      ∃ l₁ l₂, l = l₁ ++ l₂ ∧ l₁.map f = A ∧ l₂.map f = B := by
  intro A
  induction A with
  | nil => exact fun B l h => ⟨[], l, rfl, rfl, h⟩
  | cons a as ih =>
      intro B l h
      cases l with
      | nil => simp at h
      | cons x xs =>
          rw [List.map_cons, List.cons_append] at h
          injection h with h1 h2
          obtain ⟨l₁, l₂, rfl, hm1, hm2⟩ := ih B xs h2
          exact ⟨x :: l₁, l₂, rfl, by rw [List.map_cons, h1, hm1], hm2⟩

theorem dropWhile_ws_space (c : Char) (h : lcase c = ' ') (l : List Char) :
    List.dropWhile isWS (c :: l) = List.dropWhile isWS l := by
  have hws : isWS c = true := by rw [← isWS_lcase, h]; rfl
  simp [List.dropWhile_cons, hws]

theorem dropWhile_ws_stop (c t : Char) (h : lcase c = t) (ht : isWS t = false)
    (l : List Char) : List.dropWhile isWS (c :: l) = c :: l := by
  have hws : isWS c = false := by rw [← isWS_lcase, h, ht]
  simp [List.dropWhile_cons, hws]

/-- Any string whose characters lower-case to "price on request" matches
the `price\s*on\s*request` pattern at its own position, whatever follows. -/
theorem matchPOR_of_lower :
    ∀ (sl rest : List Char), sl.map lcase = "price on request".toList →
      matchPOR (sl ++ rest) = true := by
  intro sl rest h
  have h' : sl.map lcase =
      ['p', 'r', 'i', 'c', 'e'] ++
        (' ' :: (['o', 'n'] ++ (' ' :: ['r', 'e', 'q', 'u', 'e', 's', 't']))) := h
  obtain ⟨p1, z1, rfl, hp1, hz1⟩ := map_eq_append_ex lcase _ _ sl h'
  cases z1 with
  | nil => simp at hz1
  | cons c5 z2 =>
      rw [List.map_cons] at hz1
      injection hz1 with hc5 hz2
      obtain ⟨p2, z3, rfl, hp2, hz3⟩ := map_eq_append_ex lcase _ _ z2 hz2
      cases z3 with
      | nil => simp at hz3
      | cons c8 z4 =>
          rw [List.map_cons] at hz3
          injection hz3 with hc8 hz4
          have hassoc :
              ((p1 ++ c5 :: (p2 ++ c8 :: z4)) ++ rest) =
                p1 ++ (c5 :: (p2 ++ (c8 :: (z4 ++ rest)))) := by
            simp [List.append_assoc]
          rw [hassoc]
          rw [matchPOR, litCI_append _ _ _ hp1]
          dsimp only
          rw [dropWhile_ws_space c5 hc5]
          cases p2 with
          | nil => simp at hp2
          | cons c6 p2t =>
              rw [List.map_cons] at hp2
              injection hp2 with hc6 hp2t
              rw [List.cons_append, dropWhile_ws_stop c6 'o' hc6 (by rfl)]
              rw [← List.cons_append,
                  litCI_append _ _ _ (by rw [List.map_cons, hc6, hp2t])]
              dsimp only
              rw [dropWhile_ws_space c8 hc8]
              cases z4 with
              | nil => simp at hz4
              | cons c9 z5 =>
                  rw [List.map_cons] at hz4
                  injection hz4 with hc9 hz5
                  rw [List.cons_append, dropWhile_ws_stop c9 'r' hc9 (by rfl)]
                  rw [← List.cons_append,
                      litCI_append _ _ _ (by rw [List.map_cons, hc9, hz5])]
                  rfl

theorem searchPOR_of_match (l : List Char) (h : matchPOR l = true) (hne : l ≠ []) :
    searchPOR l = true := by
  cases l with
  | nil => exact absurd rfl hne
  | cons c cs => simp [searchPOR, h]

theorem searchPOR_append (l₁ l₂ : List Char) (h : searchPOR l₂ = true) :
    searchPOR (l₁ ++ l₂) = true := by
  induction l₁ with
  | nil => simpa
  | cons c cs ih => simp [searchPOR, ih]

/-- C6: `parse_price` returns absent (no amount, no currency) for the
empty text, and for every text containing the marker "price on request"
in any letter case — whatever numbers or currency tokens surround it. -/
theorem C6_empty_and_por_absent :
    parse_price "" = (none, none) ∧
    ∀ (pre s post : String), s.toList.map lcase = "price on request".toList →
      parse_price (pre ++ s ++ post) = (none, none) := by
  refine ⟨by decide, ?_⟩
  intro pre s post h
  have hne : s.toList ++ post.toList ≠ [] := by
    intro hnil
    rcases List.append_eq_nil.mp hnil with ⟨h1, _⟩
    rw [h1] at h
    simp at h
  have ht : (pre ++ s ++ post).toList = pre.toList ++ (s.toList ++ post.toList) := by
    simp [String.toList, String.data_append, List.append_assoc]
  have hs : searchPOR (pre ++ s ++ post).toList = true := by
    rw [ht]
    exact searchPOR_append _ _
      (searchPOR_of_match _ (matchPOR_of_lower s.toList post.toList h) hne)
  by_cases he : pre ++ s ++ post = ""
  · simp [parse_price, he]
  · unfold parse_price
    rw [if_neg he, if_pos hs]

/-- C6 witness at a concrete input: an upper-case marker surrounded by a
number and a currency token still yields absent. -/
theorem C6_empty_and_por_absent_w :
    parse_price ("see " ++ "PRICE ON REQUEST" ++ " 500 DH") = (none, none) :=
  C6_empty_and_por_absent.2 "see " "PRICE ON REQUEST" " 500 DH" (by decide)

/-- C2, amended: `price_per_sqm` is present if and only if price and area
are both present, the price is non-zero (Python truthiness of `price`)
and the area is positive; when present it equals `round(price/area, 2)`.
A record with price 0 and positive area gets `price_per_sqm = None`. -/
theorem C2_amended_ppsqm_rule (today : String) (box : Card) :
    ((buildRecord today box).price_per_sqm.isSome = true ↔
      ∃ p a, (buildRecord today box).price = some p ∧ p ≠ 0 ∧
        (buildRecord today box).area = some a ∧ 0 < a) ∧
    ∀ p a, (buildRecord today box).price = some p →
      (buildRecord today box).area = some a → p ≠ 0 → 0 < a →
      (buildRecord today box).price_per_sqm = some (round2 (p / a)) := by
  unfold buildRecord ppsqmOf
  dsimp only
  constructor
  · cases hp : (parse_price box.textAll).1 with
    | none => simp
    | some p =>
        cases ha : (areaOf box).1 with
        | none => simp
        | some a =>
            dsimp only
            by_cases hc : p ≠ 0 ∧ a ≠ 0 ∧ 0 < a
            · simp only [if_pos hc, Option.isSome_some, true_iff]
              exact ⟨p, a, rfl, hc.1, rfl, hc.2.2⟩
            · rw [if_neg hc]
              constructor
              · intro hfalse
                exact absurd hfalse (by decide)
              · rintro ⟨p', a', hp', hp0, ha', ha0⟩
                injection hp' with hp'
                injection ha' with ha'
                subst hp'
                subst ha'
                exact absurd ⟨hp0, ne_of_gt ha0, ha0⟩ hc
  · intro p a hp ha hp0 ha0
    rw [hp, ha]
    dsimp only
    rw [if_pos ⟨hp0, ne_of_gt ha0, ha0⟩]

/-- C2 witness at a concrete card: price 100 DH and area 50 m² give
`price_per_sqm = round(100/50, 2) = 2`. -/
theorem C2_amended_ppsqm_rule_w :
    (buildRecord "2026-10-12" ppsqmCard).price_per_sqm = some 2 := by
  have h := (C2_amended_ppsqm_rule "2026-10-12" ppsqmCard).2 100 50
    (by decide) (by decide) (by decide) (by decide)
  rw [h]
  rw [show ((100 : ℚ) / 50) = 2 by norm_num]
  decide

/-- C7, amended: an href that starts with "/" is prefixed with the site
origin `https://www.mubawab.ma`; ANY other href — whether it already has
a scheme or is relative like `details.html` — is kept unchanged, so a
scheme-less relative link can be emitted as-is. -/
theorem C7_amended_link_rule (today : String) (box : Card) (a : Anchor)
    (hanch : box.anchor = some a) :
    (strStartsWith a.href "/" = true →
      (buildRecord today box).link = "https://www.mubawab.ma" ++ a.href) ∧
    (strStartsWith a.href "/" = false →
      (buildRecord today box).link = a.href) := by
  unfold buildRecord linkOf
  dsimp only
  rw [hanch]
  constructor
  · intro hsw
    have hne : a.href ≠ "" := by
      intro hnil
      rw [hnil] at hsw
      exact absurd hsw (by decide)
    simp [hsw, hne]
  · intro hsw
    by_cases hne : a.href = "" <;> simp [hsw, hne]

/-- C7 witness at a concrete card: the anchor href "/listing/9" is
prefixed with the origin. -/
theorem C7_amended_link_rule_w :
    (buildRecord "2026-10-12"
        { textAll := "", titleTagText := none,
          anchor := some { href := "/listing/9", textStrip := "", textSpaced := "" },
          areaString := none, imgAttrs := none }).link =
      "https://www.mubawab.ma" ++ "/listing/9" :=
  (C7_amended_link_rule "2026-10-12" _ _ rfl).1 (by decide)

/-- C7, counterexample: a card whose anchor href is "details.html" emits
the non-empty link "details.html" unchanged — a relative URL with no
scheme — although the claim demands every present link be absolute. -/
theorem C7_counterexample :
    (buildRecord "2026-10-12" relLinkCard).link = "details.html" ∧
    specIsAbsoluteUrl "details.html" = false ∧
    ("details.html" : String) ≠ "" := by decide

/-- C8, counterexample: an image tag carrying both `src` and `data-lazy`
resolves to the `src` value, not the lazy-load value the claim demands be
preferred. -/
theorem C8_counterexample :
    (buildRecord "2026-10-12" lazyImgCard).image = "http://site/a.jpg" ∧
    ("http://site/a.jpg" : String) ≠ "http://site/b.jpg" := by decide

/-- C8, amended: the image cascade order is `data-src`, `src`,
`data-lazy`, `data-original`, `srcset` — so `data-src` is preferred over
`src`, but `src` is preferred over the other lazy-load attributes; and a
chosen source-set value (containing a space and "http") is cut down to
its first comma candidate's first space-delimited token. -/
theorem C8_amended_image_cascade :
    (∀ (attrs : List (String × String)) (v : String),
      tagGet attrs "data-src" = some v → v ≠ "" →
        first_attr attrs ["data-src", "src", "data-lazy", "data-original", "srcset"] = some v) ∧
    (∀ (attrs : List (String × String)) (v : String),
      tagGet attrs "data-src" = none → tagGet attrs "src" = some v → v ≠ "" →
        first_attr attrs ["data-src", "src", "data-lazy", "data-original", "srcset"] = some v) ∧
    imageOf srcsetCard = some "http://site/a.jpg" := by
  refine ⟨?_, ?_, by decide⟩
  · intro attrs v hget hne
    simp [first_attr, hget, hne]
  · intro attrs v hds hget hne
    simp [first_attr, hds, hget, hne]

/-- C8 witness at concrete attribute maps: `data-src` wins over `src`,
and `src` wins when `data-src` is absent. -/
theorem C8_amended_image_cascade_w :
    first_attr [("src", "s.jpg"), ("data-src", "d.jpg")]
        ["data-src", "src", "data-lazy", "data-original", "srcset"] = some "d.jpg" ∧
    first_attr [("src", "s.jpg"), ("data-lazy", "l.jpg")]
        ["data-src", "src", "data-lazy", "data-original", "srcset"] = some "s.jpg" :=
  ⟨C8_amended_image_cascade.1 _ "d.jpg" (by decide) (by decide),
   C8_amended_image_cascade.2.1 _ "s.jpg" (by decide) (by decide) (by decide)⟩

/-- C10: `parse_listings` emits exactly one record per detected card —
no card is dropped — and absent markup pieces surface as empty strings in
the string-typed fields (title, currency, unit, location, image, link)
while only price, area and price_per_sqm are optional: with no anchor the
link is "", with no image tag the image is "", with no currency match the
currency is "", and with no area text node area and price_per_sqm are
absent with unit "". -/
theorem C10_strings_defaulted_no_card_dropped (today : String) (cards : List Card)
    (box : Card) :
    (parse_listings today cards).length = cards.length ∧
    (box.anchor = none → (buildRecord today box).link = "") ∧
    (box.imgAttrs = none → (buildRecord today box).image = "") ∧
    ((parse_price box.textAll).2 = none → (buildRecord today box).currency = "") ∧
    (box.areaString = none →
      (buildRecord today box).unit = "" ∧ (buildRecord today box).area = none ∧
      (buildRecord today box).price_per_sqm = none) := by
  refine ⟨List.length_map _ _, ?_, ?_, ?_, ?_⟩
  · intro h
    show (linkOf box).getD "" = ""
    unfold linkOf
    rw [h]
    rfl
  · intro h
    show (imageOf box).getD "" = ""
    unfold imageOf
    rw [h]
    rfl
  · intro h
    show ((parse_price box.textAll).2).getD "" = ""
    rw [h]
    rfl
  · intro h
    refine ⟨?_, ?_, ?_⟩
    · show ((areaOf box).2).getD "" = ""
      unfold areaOf
      rw [h]
      rfl
    · show (areaOf box).1 = none
      unfold areaOf
      rw [h]
    · show ppsqmOf (parse_price box.textAll).1 (areaOf box).1 = none
      unfold areaOf ppsqmOf
      rw [h]
      cases (parse_price box.textAll).1 <;> rfl

theorem collectListings_stop {R : Type} (parse : String → List R) :
    ∀ (pre : List (Option String)) (r : Option String) (post : List (Option String)),
      (∀ x ∈ pre, stopPage parse x = false) → stopPage parse r = true →
      collectListings parse (pre ++ r :: post) =
        (pre.map (pageRecords parse)).flatten := by
  intro pre
  induction pre with
  | nil =>
      intro r post _ hr
      cases r with
      | none => exact absurd hr (by simp [stopPage])
      | some b =>
          rw [stopPage] at hr
          by_cases hb : b = ""
          · rw [if_pos hb] at hr
            exact absurd hr (by decide)
          · rw [if_neg hb] at hr
            rw [List.nil_append, collectListings, if_neg hb]
            dsimp only
            rw [if_pos hr]
            rfl
  | cons x pre ih =>
      intro r post hpre hr
      have hx : stopPage parse x = false := hpre x (List.mem_cons_self x pre)
      have hpre2 : ∀ y ∈ pre, stopPage parse y = false :=
        fun y hy => hpre y (List.mem_cons_of_mem _ hy)
      rw [List.cons_append]
      cases x with
      | none =>
          rw [collectListings, ih r post hpre2 hr]
          simp [pageRecords]
      | some b =>
          by_cases hb : b = ""
          · subst hb
            rw [collectListings, if_pos rfl, ih r post hpre2 hr]
            simp [pageRecords]
          · rw [stopPage, if_neg hb] at hx
            rw [collectListings, if_neg hb]
            dsimp only
            rw [if_neg (by simp [hx]), ih r post hpre2 hr]
            simp [pageRecords, hb]

/-- C1, amended: the crawl stops at the first page, in ascending page
order, that was fetched successfully (non-empty body) but parsed to zero
listings; a page whose fetch fails (NotFound or TransportError, i.e.
`fetch_page` returned None) or whose body is empty is merely SKIPPED —
it contributes no records but does not stop the crawl, so a later page
can still extend the result.  The final result is the concatenation, in
ascending page order with within-page order preserved, of the record
lists of the non-skipped pages strictly before that first zero-listings
page; pages at or after it are never included even if their own fetch and
parse succeed. -/
theorem C1_amended_stop_at_first_zero_listings {R : Type}
    (fetch : String → Option String) (parse : String → List R)
    (base_url : String) (pages : Int) (k : Nat)
    (h1 : 1 ≤ k) (h2 : k ≤ (max 1 (min pages MAX_PAGES)).toNat)
    (hstop : stopPage parse (fetch (pageUrl base_url k)) = true)
    (hpre : ∀ j, 1 ≤ j → j < k → stopPage parse (fetch (pageUrl base_url j)) = false) :
    scrape_mubawab_list_page fetch parse base_url pages =
      ((List.range (k - 1)).map
        (fun j => pageRecords parse (fetch (pageUrl base_url (j + 1))))).flatten := by
  unfold scrape_mubawab_list_page
  set p := (max 1 (min pages MAX_PAGES)).toNat with hp
  set f : Nat → Option String := fun j => fetch (pageUrl base_url (j + 1)) with hf
  set rs : List (Option String) := (List.range p).map f with hrs
  have hlen : rs.length = p := by simp [hrs]
  have hb : k - 1 < rs.length := by omega
  have h3 : k - 1 + 1 = k := by omega
  have hsplit : rs = rs.take (k - 1) ++ rs[k - 1] :: rs.drop k := by
    conv_lhs => rw [← List.take_append_drop (k - 1) rs,
      List.drop_eq_getElem_cons hb, h3]
  have hgx : rs[k - 1] = f (k - 1) := by
    simp [hrs, List.getElem_map, List.getElem_range]
  have hstop2 : stopPage parse (rs[k - 1]) = true := by
    rw [hgx, hf]
    dsimp only
    rw [h3]
    exact hstop
  have hpre2 : ∀ x ∈ rs.take (k - 1), stopPage parse x = false := by
    intro x hx
    rw [List.mem_iff_getElem] at hx
    obtain ⟨i, hi, hix⟩ := hx
    have hi2 : i < k - 1 := by
      rw [List.length_take, hlen] at hi
      omega
    have hib : i < rs.length := by omega
    rw [List.getElem_take] at hix
    have hfi : rs[i] = f i := by
      simp [hrs, List.getElem_map, List.getElem_range]
    rw [hfi, hf] at hix
    dsimp only at hix
    rw [← hix]
    exact hpre (i + 1) (by omega) (by omega)
  show collectListings parse rs =
    ((List.range (k - 1)).map
      (fun j => pageRecords parse (fetch (pageUrl base_url (j + 1))))).flatten
  rw [hsplit, collectListings_stop parse _ _ _ hpre2 hstop2]
  have htake : rs.take (k - 1) = (List.range (k - 1)).map f := by
    rw [hrs, ← List.map_take, List.take_range, min_eq_left (by omega)]
  rw [htake, List.map_map]
  rfl

/-- C1 witness at a concrete simulated source: pages 1 and 2 fetch fine,
page 2 parses to zero listings, page 3 would succeed; the result is
exactly page 1's records. -/
theorem C1_amended_stop_at_first_zero_listings_w :
    scrape_mubawab_list_page exFetchEmpty exParse "u" 3 = ["A"] := by
  have h := C1_amended_stop_at_first_zero_listings exFetchEmpty exParse "u" 3 2
    (by decide) (by decide) (by decide)
    (by
      intro j hj1 hj2
      have hj : j = 1 := by omega
      subst hj
      decide)
  rw [h]
  decide

/-- C10 witness at a concrete card with every piece absent: all six
string fields are "" and the three optional fields are absent. -/
theorem C10_strings_defaulted_no_card_dropped_w :
    (parse_listings "2026-10-12" [emptyCard]).length = 1 ∧
    (buildRecord "2026-10-12" emptyCard).link = "" ∧
    (buildRecord "2026-10-12" emptyCard).image = "" ∧
    (buildRecord "2026-10-12" emptyCard).currency = "" ∧
    (buildRecord "2026-10-12" emptyCard).unit = "" ∧
    (buildRecord "2026-10-12" emptyCard).area = none ∧
    (buildRecord "2026-10-12" emptyCard).price_per_sqm = none := by
  have h := C10_strings_defaulted_no_card_dropped "2026-10-12" [emptyCard] emptyCard
  have h4 := h.2.2.2.2 rfl
  exact ⟨h.1, h.2.1 rfl, h.2.2.1 rfl, h.2.2.2.1 (by decide), h4.1, h4.2.1, h4.2.2⟩

end Scraper
